import Mathlib

/-!
# Verification of the FITS-image statistics tutorial

Shallow embedding of the notebook `src/tutorials/FITS images in python.ipynb`.
Pixel values are modelled as exact rationals (`ℚ`); the numpy / scipy calls
the notebook performs (`np.mean`, `np.median`, `stats.mode`, `np.std`,
boolean-mask filtering, `plt.hist` binning, `np.linspace`, `norm.pdf`,
elementwise `+`, `np.mean(·, axis=0)`) are embedded as Lean functions below.
The error-signalling wrappers (`summarize`, `histogram`, `combine`) that the
specification's design section describes are modelled from the spec, with the
numeric content taken from the notebook.
-/

namespace FitsStats

/-- A flattened 1-D series of samples, as produced by `imagedata.flatten()`. -/
abbrev SampleSeries := List ℚ

/-- `np.mean`: the arithmetic mean, sum divided by length
(`ℚ` division by zero yields 0; `summarize` guards the empty case). -/
def npMean (s : SampleSeries) : ℚ := s.sum / s.length

/-- `np.min`: the least sample (0 on the empty series, which the notebook
never takes a minimum of). -/
def npMin : SampleSeries → ℚ
  | [] => 0
  | [x] => x
  | x :: y :: ys => min x (npMin (y :: ys))

/-- `np.max`: the greatest sample. -/
def npMax : SampleSeries → ℚ
  | [] => 0
  | [x] => x
  | x :: y :: ys => max x (npMax (y :: ys))

/-- The sorted copy of the series that `np.median` and `stats.mode`
conceptually work on. -/
def sortedVals (s : SampleSeries) : List ℚ := s.insertionSort (· ≤ ·)

/-- `np.median`: middle element of the sorted series for odd length,
average of the two middle elements for even length. -/
def npMedian (s : SampleSeries) : ℚ :=
  if s.length % 2 = 1 then (sortedVals s).getD (s.length / 2) 0
  else ((sortedVals s).getD (s.length / 2 - 1) 0 + (sortedVals s).getD (s.length / 2) 0) / 2

/-- The ascending list of distinct sample values (`np.unique`),
which `stats.mode` scans for the first maximal count. -/
def uniqueVals (s : SampleSeries) : List ℚ := (sortedVals s).dedup

/-- `scipy.stats.mode`: the value with the greatest number of occurrences;
scanning the ascending distinct values and replacing the current best only on
a strictly greater count returns the smallest value on a tie, exactly as
`np.unique` + `argmax` does. -/
def npMode (s : SampleSeries) : ℚ :=
  match uniqueVals s with
  | [] => 0
  | v :: vs => vs.foldl (fun best w => if s.count best < s.count w then w else best) v

/-- The population variance: the mean of the squared deviations from the mean.
`np.std` is its square root; theorems about the standard deviation apply
`Real.sqrt` to this exact rational. -/
def popVariance (s : SampleSeries) : ℚ :=
  npMean (s.map (fun x => (x - npMean s) ^ 2))

/-- The record of descriptive statistics the notebook prints
(`np.min`, `np.max`, `np.mean`, `np.median`, `stats.mode`, `np.std`).
The `variance` field is the exact population variance; the printed standard
deviation is `Real.sqrt variance`. -/
structure StatsSummary where
  count : ℕ
  min : ℚ
  max : ℚ
  mean : ℚ
  median : ℚ
  mode : ℚ
  variance : ℚ
deriving DecidableEq

/-- The statistics record for a series, as the notebook computes it. -/
def statsOf (s : SampleSeries) : StatsSummary :=
  ⟨s.length, npMin s, npMax s, npMean s, npMedian s, npMode s, popVariance s⟩

/-- Modelled from the spec: the error signalled when statistics are requested
on an empty series (the notebook itself never guards this case). -/
inductive StatsError
  | emptyInput
deriving DecidableEq

/-- Modelled from the spec: `summarize(series) -> StatsSummary`, failing with
`EmptyInputError` on an empty series; the statistics themselves are the
notebook's `np.*` / `stats.mode` computations. -/
def summarize (s : SampleSeries) : Except StatsError StatsSummary :=
  if s = [] then .error .emptyInput else .ok (statsOf s)

/-- The boolean-mask filtering the notebook performs, e.g.
`countvalues[(countvalues>=clipmin) & (countvalues<=clipmax)]` and
`countvalues[countvalues<1050]`, generalized over bound inclusivity
exactly as the spec's `filterRange` describes. -/
def filterRange (s : SampleSeries) (low high : ℚ)
    (lowInclusive highInclusive : Bool) : SampleSeries :=
  s.filter (fun x =>
    (if lowInclusive then decide (low ≤ x) else decide (low < x)) &&
    (if highInclusive then decide (x ≤ high) else decide (x < high)))

/-- The histogram configuration of `plt.hist(countvalues, range=[a,b], bins=n)`. -/
structure HistogramSpec where
  rangeMin : ℚ
  rangeMax : ℚ
  binCount : ℕ
deriving DecidableEq

/-- The bin a sample falls into under `plt.hist` binning with `bins` equal-width
bins over `[lo, hi]`: `none` for samples outside `[lo, hi]`; otherwise the
integer part of the rescaled position, with `hi` itself assigned to the last
bin (bins are half-open except the last, which is closed). -/
def binIndex (lo hi : ℚ) (bins : ℕ) (x : ℚ) : Option ℕ :=
  if lo ≤ x ∧ x ≤ hi then
    some (Min.min (⌊(x - lo) * (bins : ℚ) / (hi - lo)⌋.toNat) (bins - 1))
  else none

/-- The per-bin occurrence counts of `plt.hist(s, range=[lo,hi], bins=bins)`. -/
def histCounts (s : SampleSeries) (lo hi : ℚ) (bins : ℕ) : List ℕ :=
  (List.range bins).map (fun i => s.countP (fun x => decide (binIndex lo hi bins x = some i)))

/-- The `bins + 1` equally spaced bin boundaries of `plt.hist`. -/
def binEdges (lo hi : ℚ) (bins : ℕ) : List ℚ :=
  (List.range (bins + 1)).map (fun i : ℕ => lo + (i : ℚ) * (hi - lo) / (bins : ℚ))

/-- Modelled from the spec: the error signalled for a malformed histogram
configuration (`binCount <= 0` or `rangeMin >= rangeMax`). -/
inductive HistError
  | invalidSpec
deriving DecidableEq

/-- The derived histogram result: bin edges plus per-bin counts. -/
structure Histogram where
  edges : List ℚ
  counts : List ℕ
deriving DecidableEq

/-- Modelled from the spec: `histogram(series, spec) -> Histogram`, failing with
`InvalidSpecError` on a malformed spec; the binning itself is the notebook's
`plt.hist(countvalues, range=[a,b], bins=n)`. -/
def histogram (s : SampleSeries) (spec : HistogramSpec) : Except HistError Histogram :=
  if spec.binCount = 0 ∨ spec.rangeMax ≤ spec.rangeMin then .error .invalidSpec
  else .ok ⟨binEdges spec.rangeMin spec.rangeMax spec.binCount,
            histCounts s spec.rangeMin spec.rangeMax spec.binCount⟩

/-- `np.linspace a b n`: `n` evenly spaced points from `a` to `b` inclusive. -/
def linspace (a b : ℚ) (n : ℕ) : List ℚ :=
  (List.range n).map (fun i : ℕ => a + (i : ℚ) * (b - a) / ((n - 1 : ℕ) : ℚ))

/-- The fitted-normal overlay of the notebook's cell 16: the estimated `mu`,
the estimated population variance (`sig = np.std(...)` squared), the
histogram-matching `normalization`, and the dense x-grid `np.linspace`.
The (x, y) pairs are `curvePoints`. -/
structure FittedCurve where
  mu : ℚ
  sigma2 : ℚ
  normalization : ℚ
  xs : List ℚ
deriving DecidableEq

/-- The notebook's overlay computation:
`normalization=(cmax-cmin)/nbins*len(countvalues[(countvalues>=cmin) & (countvalues<=cmax)])`,
`mu=np.mean(...)`, `sig=np.std(...)`, `xarray=np.linspace(cmin,cmax,nbins*10)`,
taken as a function of the series it is given, as the spec's `fitNormal`. -/
def fitNormal (s : SampleSeries) (spec : HistogramSpec) : FittedCurve :=
  { mu := npMean s
    sigma2 := popVariance s
    normalization := (spec.rangeMax - spec.rangeMin) / (spec.binCount : ℚ) *
      ((s.filter (fun x => decide (spec.rangeMin ≤ x) && decide (x ≤ spec.rangeMax))).length : ℚ)
    xs := linspace spec.rangeMin spec.rangeMax (spec.binCount * 10) }

/-- `scipy.stats.norm.pdf(x, loc=mu, scale=sig)` with `sig = √sigma2`:
the normal density `exp(-(x-mu)² / (2 sigma2)) / √(2 π sigma2)`. -/
noncomputable def normPdf (mu sigma2 : ℚ) (x : ℚ) : ℝ :=
  Real.exp (-(((x : ℝ) - (mu : ℝ)) ^ 2) / (2 * (sigma2 : ℝ))) /
    Real.sqrt (2 * Real.pi * (sigma2 : ℝ))

/-- The notebook's `yarray = normalization * norm.pdf(xarray, loc=mu, scale=sig)`,
paired with the x-grid: the (x, density×normalization) pairs of the overlay. -/
noncomputable def curvePoints (c : FittedCurve) : List (ℚ × ℝ) :=
  c.xs.map (fun x => (x, (c.normalization : ℝ) * normPdf c.mu c.sigma2 x))

/-- A 2-D image: the numpy array `hdulist[0].data`, as a list of rows. -/
abbrev Image := List (List ℚ)

/-- `imagedata.shape`: (number of rows, number of columns of the first row). -/
def shape (A : Image) : ℕ × ℕ := (A.length, (A.headD []).length)

/-- Rectangularity: every row has the same length as the first row
(the spec's invariant on Images). -/
def Rect (A : Image) : Prop := ∀ r ∈ A, r.length = (A.headD []).length

instance (A : Image) : Decidable (Rect A) := List.decidableBAll _ A

/-- The notebook's elementwise `imagedata + imagedata2`. -/
def addImage (A B : Image) : Image :=
  List.zipWith (fun r1 r2 => List.zipWith (fun x y => x + y) r1 r2) A B

/-- Elementwise scaling of every sample of an image by a constant. -/
def scaleImage (c : ℚ) (A : Image) : Image :=
  A.map (fun r => r.map (fun x => c * x))

/-- The elementwise sum of a stack of images (`np.sum(allimages, axis=0)`,
iterated `+` for two images as in the notebook). -/
def stackSum : List Image → Image
  | [] => []
  | [A] => A
  | A :: B :: rest => addImage A (stackSum (B :: rest))

/-- The two stacking operators the notebook uses: elementwise `+`, and
`np.mean(allimages, axis=0)`. -/
inductive CombineOp
  | opSum
  | opMean
deriving DecidableEq

/-- Modelled from the spec: the error signalled when the images to combine do
not all share one shape (numpy would raise a broadcast error instead). -/
inductive CombineError
  | shapeMismatch
deriving DecidableEq

/-- Modelled from the spec: `combine(images, op)` requiring all input images to
share one shape; `sum` is the notebook's elementwise `+`, `mean` is
`np.mean(allimages, axis=0)`, i.e. the elementwise sum divided by the number of
images. The empty stack is rejected with the same error. -/
def combine (imgs : List Image) (op : CombineOp) : Except CombineError Image :=
  match imgs with
  | [] => .error .shapeMismatch
  | A :: rest =>
    if rest.all (fun B => decide (shape B = shape A)) then
      match op with
      | .opSum => .ok (stackSum (A :: rest))
      | .opMean => .ok (scaleImage (1 / ((A :: rest).length : ℚ)) (stackSum (A :: rest)))
    else .error .shapeMismatch

/-! ## Helper lemmas -/

lemma getD_zipWith {α β γ : Type} (f : α → β → γ) (d₁ : α) (d₂ : β) (d₃ : γ) :
    ∀ (A : List α) (B : List β) (i : ℕ), i < A.length → i < B.length →
      (List.zipWith f A B).getD i d₃ = f (A.getD i d₁) (B.getD i d₂) := by
  intro A
  induction A with
  | nil => intro B i h _; simp at h
  | cons a A ih =>
    intro B i hA hB
    cases B with
    | nil => simp at hB
    | cons b B =>
      cases i with
      | zero => rfl
      | succ i =>
        simp only [List.zipWith_cons_cons, List.getD_cons_succ]
        exact ih B i (by simpa using hA) (by simpa using hB)

lemma getD_map {α β : Type} (f : α → β) (d₁ : α) (d₂ : β) :
    ∀ (L : List α) (i : ℕ), i < L.length → (L.map f).getD i d₂ = f (L.getD i d₁) := by
  intro L
  induction L with
  | nil => intro i h; simp at h
  | cons a L ih =>
    intro i h
    cases i with
    | zero => rfl
    | succ i =>
      simp only [List.map_cons, List.getD_cons_succ]
      exact ih i (by simpa using h)

lemma npMin_le_mem : ∀ (s : SampleSeries), ∀ x ∈ s, npMin s ≤ x := by
  intro s
  induction s with
  | nil => simp
  | cons a t ih =>
    intro x hx
    cases t with
    | nil =>
      rcases List.mem_cons.mp hx with h | h
      · simp [npMin, h]
      · simp at h
    | cons b u =>
      simp only [npMin]
      rcases List.mem_cons.mp hx with h | h
      · exact h ▸ min_le_left _ _
      · exact le_trans (min_le_right _ _) (ih x h)

lemma mem_le_npMax : ∀ (s : SampleSeries), ∀ x ∈ s, x ≤ npMax s := by
  intro s
  induction s with
  | nil => simp
  | cons a t ih =>
    intro x hx
    cases t with
    | nil =>
      rcases List.mem_cons.mp hx with h | h
      · simp [npMax, h]
      · simp at h
    | cons b u =>
      simp only [npMax]
      rcases List.mem_cons.mp hx with h | h
      · exact h ▸ le_max_left _ _
      · exact le_trans (ih x h) (le_max_right _ _)

lemma npMin_mem : ∀ (s : SampleSeries), s ≠ [] → npMin s ∈ s := by
  intro s
  induction s with
  | nil => intro h; exact absurd rfl h
  | cons a t ih =>
    intro _
    cases t with
    | nil => simp [npMin]
    | cons b u =>
      simp only [npMin]
      rcases le_total a (npMin (b :: u)) with h | h
      · simp [min_eq_left h]
      · rw [min_eq_right h]
        exact List.mem_cons_of_mem a (ih (by simp))

lemma npMax_mem : ∀ (s : SampleSeries), s ≠ [] → npMax s ∈ s := by
  intro s
  induction s with
  | nil => intro h; exact absurd rfl h
  | cons a t ih =>
    intro _
    cases t with
    | nil => simp [npMax]
    | cons b u =>
      simp only [npMax]
      rcases le_total (npMax (b :: u)) a with h | h
      · simp [max_eq_left h]
      · rw [max_eq_right h]
        exact List.mem_cons_of_mem a (ih (by simp))

lemma length_pos_rat (s : SampleSeries) (h : s ≠ []) : 0 < (s.length : ℚ) := by
  exact_mod_cast List.length_pos.mpr h

lemma npMin_le_npMean (s : SampleSeries) (h : s ≠ []) : npMin s ≤ npMean s := by
  rw [npMean, le_div_iff₀ (length_pos_rat s h)]
  have h2 := List.card_nsmul_le_sum s (npMin s) (npMin_le_mem s)
  rw [nsmul_eq_mul] at h2
  linarith

lemma npMean_le_npMax (s : SampleSeries) (h : s ≠ []) : npMean s ≤ npMax s := by
  rw [npMean, div_le_iff₀ (length_pos_rat s h)]
  have h2 := List.sum_le_card_nsmul s (npMax s) (mem_le_npMax s)
  rw [nsmul_eq_mul] at h2
  linarith

lemma mem_sortedVals (s : SampleSeries) {x : ℚ} : x ∈ sortedVals s ↔ x ∈ s :=
  (List.perm_insertionSort _ s).mem_iff

lemma length_sortedVals (s : SampleSeries) : (sortedVals s).length = s.length :=
  (List.perm_insertionSort _ s).length_eq

lemma npMedian_bounds (s : SampleSeries) (h : s ≠ []) :
    npMin s ≤ npMedian s ∧ npMedian s ≤ npMax s := by
  have hn : 0 < s.length := List.length_pos.mpr h
  have hmem : ∀ i : ℕ, i < s.length → (sortedVals s).getD i 0 ∈ s := by
    intro i hi
    have hi2 : i < (sortedVals s).length := by rw [length_sortedVals]; exact hi
    rw [List.getD_eq_getElem _ _ hi2]
    exact (mem_sortedVals s).mp (List.getElem_mem hi2)
  rw [npMedian]
  split
  · have hm := hmem (s.length / 2) (Nat.div_lt_self hn (by norm_num))
    exact ⟨npMin_le_mem s _ hm, mem_le_npMax s _ hm⟩
  · have h1 := hmem (s.length / 2 - 1)
      (lt_of_le_of_lt (Nat.sub_le _ _) (Nat.div_lt_self hn (by norm_num)))
    have h2 := hmem (s.length / 2) (Nat.div_lt_self hn (by norm_num))
    constructor
    · have b1 := npMin_le_mem s _ h1
      have b2 := npMin_le_mem s _ h2
      linarith
    · have b1 := mem_le_npMax s _ h1
      have b2 := mem_le_npMax s _ h2
      linarith

lemma mem_uniqueVals (s : SampleSeries) {x : ℚ} : x ∈ uniqueVals s ↔ x ∈ s := by
  rw [uniqueVals, List.mem_dedup, mem_sortedVals]

lemma uniqueVals_pairwise_lt (s : SampleSeries) : (uniqueVals s).Pairwise (· < ·) := by
  have hsorted : (uniqueVals s).Pairwise (· ≤ ·) :=
    List.Pairwise.sublist (List.dedup_sublist _) (List.sorted_insertionSort _ s)
  have hne : (uniqueVals s).Pairwise (· ≠ ·) := List.nodup_dedup _
  exact (hsorted.and hne).imp (fun h => lt_of_le_of_ne h.1 h.2)

lemma modeFold_spec (s : SampleSeries) :
    ∀ (L : List ℚ) (b : ℚ), (b :: L).Pairwise (· < ·) →
      (L.foldl (fun best w => if s.count best < s.count w then w else best) b) ∈ b :: L ∧
      (∀ w ∈ b :: L,
        s.count w ≤ s.count (L.foldl (fun best w => if s.count best < s.count w then w else best) b)) ∧
      (∀ w ∈ b :: L,
        s.count w = s.count (L.foldl (fun best w => if s.count best < s.count w then w else best) b) →
        (L.foldl (fun best w => if s.count best < s.count w then w else best) b) ≤ w) := by
  intro L
  induction L with
  | nil =>
    intro b _
    refine ⟨List.mem_singleton_self b, ?_, ?_⟩
    · intro w hw; rw [List.mem_singleton.mp hw, List.foldl_nil]
    · intro w hw _; rw [List.mem_singleton.mp hw, List.foldl_nil]
  | cons w L ih =>
    intro b hpw
    have hbw : b < w := (List.pairwise_cons.mp hpw).1 w (List.mem_cons_self w L)
    have hbL : ∀ v ∈ L, b < v := fun v hv =>
      (List.pairwise_cons.mp hpw).1 v (List.mem_cons_of_mem w hv)
    have hwL : (w :: L).Pairwise (· < ·) := (List.pairwise_cons.mp hpw).2
    have hwLmem : ∀ v ∈ L, w < v := (List.pairwise_cons.mp hwL).1
    set b' : ℚ := if s.count b < s.count w then w else b with hb'
    have hb'pw : (b' :: L).Pairwise (· < ·) := by
      rw [List.pairwise_cons]
      refine ⟨?_, (List.pairwise_cons.mp hwL).2⟩
      intro v hv
      rw [hb']
      split
      · exact hwLmem v hv
      · exact hbL v hv
    have hfold : (w :: L).foldl (fun best w => if s.count best < s.count w then w else best) b
        = L.foldl (fun best w => if s.count best < s.count w then w else best) b' := by
      simp [List.foldl_cons, hb']
    obtain ⟨hmem, hmax, htie⟩ := ih b' hb'pw
    rw [hfold]
    set r := L.foldl (fun best w => if s.count best < s.count w then w else best) b' with hr
    have hb'max : s.count b' ≤ s.count r := hmax b' (List.mem_cons_self b' L)
    refine ⟨?_, ?_, ?_⟩
    · rcases List.mem_cons.mp hmem with h | h
      · rw [hb'] at h
        split at h
        · rw [h]; exact List.mem_cons_of_mem b (List.mem_cons_self w L)
        · rw [h]; exact List.mem_cons_self b (w :: L)
      · exact List.mem_cons_of_mem b (List.mem_cons_of_mem w h)
    · intro v hv
      rcases List.mem_cons.mp hv with h | h
      · -- v = b
        subst h
        rw [hb'] at hb'max
        split at hb'max
        · next hlt => exact le_trans (le_of_lt hlt) hb'max
        · exact hb'max
      · rcases List.mem_cons.mp h with h2 | h2
        · -- v = w
          subst h2
          rw [hb'] at hb'max
          split at hb'max
          · exact hb'max
          · next hnlt => exact le_trans (le_of_not_lt hnlt) hb'max
        · exact hmax v (List.mem_cons_of_mem b' h2)
    · intro v hv hcnt
      rcases List.mem_cons.mp hv with h | h
      · -- v = b
        subst h
        rw [hb'] at hb'max
        by_cases hlt : s.count v < s.count w
        · rw [if_pos hlt] at hb'max
          exact absurd hcnt (by omega)
        · have hb'b : b' = v := by rw [hb', if_neg hlt]
          have := htie b' (List.mem_cons_self b' L) (by rw [hb'b, hcnt])
          rw [hb'b] at this
          exact this
      · rcases List.mem_cons.mp h with h2 | h2
        · -- v = w
          subst h2
          by_cases hlt : s.count b < s.count v
          · have hb'w : b' = v := by rw [hb', if_pos hlt]
            have := htie b' (List.mem_cons_self b' L) (by rw [hb'w, hcnt])
            rw [hb'w] at this
            exact this
          · have hb'b : b' = b := by rw [hb', if_neg hlt]
            have hcb : s.count v ≤ s.count b := le_of_not_lt hlt
            have hbr : s.count b = s.count r := by
              rw [hb'b] at hb'max; omega
            have := htie b' (List.mem_cons_self b' L) (by rw [hb'b, hbr])
            rw [hb'b] at this
            exact le_trans this (le_of_lt hbw)
        · exact htie v (List.mem_cons_of_mem b' h2) hcnt

lemma npMode_spec (s : SampleSeries) (h : s ≠ []) :
    npMode s ∈ s ∧
    (∀ v ∈ s, s.count v ≤ s.count (npMode s)) ∧
    (∀ v ∈ s, s.count v = s.count (npMode s) → npMode s ≤ v) := by
  have hne : uniqueVals s ≠ [] := by
    intro hnil
    rcases List.exists_mem_of_ne_nil s h with ⟨x, hx⟩
    have := (mem_uniqueVals s).mpr hx
    rw [hnil] at this
    simp at this
  obtain ⟨v, vs, hvs⟩ := List.exists_cons_of_ne_nil hne
  have hpw : (v :: vs).Pairwise (· < ·) := hvs ▸ uniqueVals_pairwise_lt s
  obtain ⟨hmem, hmax, htie⟩ := modeFold_spec s vs v hpw
  have hmode : npMode s = vs.foldl (fun best w => if s.count best < s.count w then w else best) v := by
    rw [npMode, hvs]
  rw [hmode]
  refine ⟨?_, ?_, ?_⟩
  · exact (mem_uniqueVals s).mp (hvs ▸ hmem)
  · intro x hx
    exact hmax x (hvs ▸ (mem_uniqueVals s).mpr hx)
  · intro x hx
    exact htie x (hvs ▸ (mem_uniqueVals s).mpr hx)

lemma sum_map_add (L : List ℕ) (f g : ℕ → ℕ) :
    (L.map (fun i => f i + g i)).sum = (L.map f).sum + (L.map g).sum := by
  induction L with
  | nil => rfl
  | cons a L ih =>
    simp only [List.map_cons, List.sum_cons, ih]
    omega

lemma sum_map_indicator (j : ℕ) :
    ∀ n : ℕ, ((List.range n).map (fun i => if j = i then (1 : ℕ) else 0)).sum
      = if j < n then 1 else 0 := by
  intro n
  induction n with
  | zero => simp
  | succ n ih =>
    rw [List.range_succ, List.map_append, List.sum_append, ih]
    simp only [List.map_cons, List.map_nil, List.sum_cons, List.sum_nil]
    split_ifs <;> omega

lemma binIndex_lt (lo hi x : ℚ) (bins : ℕ) (hb : bins ≠ 0) {j : ℕ}
    (h : binIndex lo hi bins x = some j) : j < bins := by
  rw [binIndex] at h
  split at h
  · have hj := Option.some.inj h
    have : j ≤ bins - 1 := hj ▸ Nat.min_le_right _ _
    omega
  · exact absurd h (by simp)

lemma binIndex_isSome (lo hi x : ℚ) (bins : ℕ) (h : lo ≤ x ∧ x ≤ hi) :
    binIndex lo hi bins x
      = some (Min.min (⌊(x - lo) * (bins : ℚ) / (hi - lo)⌋.toNat) (bins - 1)) := by
  rw [binIndex, if_pos h]

lemma binIndex_isNone (lo hi x : ℚ) (bins : ℕ) (h : ¬ (lo ≤ x ∧ x ≤ hi)) :
    binIndex lo hi bins x = none := by
  rw [binIndex, if_neg h]

lemma histCounts_sum (s : SampleSeries) (lo hi : ℚ) (bins : ℕ) (hb : bins ≠ 0) :
    (histCounts s lo hi bins).sum = s.countP (fun x => decide (lo ≤ x ∧ x ≤ hi)) := by
  induction s with
  | nil =>
    rw [histCounts, List.countP_nil]
    exact List.sum_eq_zero (by simp [List.countP_nil])
  | cons x t ih =>
    have hmapeq :
        (List.range bins).map
          (fun i => (x :: t).countP (fun y => decide (binIndex lo hi bins y = some i)))
        = (List.range bins).map
          (fun i => t.countP (fun y => decide (binIndex lo hi bins y = some i))
            + (if binIndex lo hi bins x = some i then 1 else 0)) := by
      refine List.map_congr_left ?_
      intro i _
      rw [List.countP_cons]
      simp
    rw [histCounts, hmapeq, sum_map_add, ← histCounts, ih, List.countP_cons]
    congr 1
    by_cases hx : lo ≤ x ∧ x ≤ hi
    · have hsome := binIndex_isSome lo hi x bins hx
      set j := Min.min (⌊(x - lo) * (bins : ℚ) / (hi - lo)⌋.toNat) (bins - 1) with hj
      have hjlt : j < bins := binIndex_lt lo hi x bins hb hsome
      have hind :
          (List.range bins).map (fun i => if binIndex lo hi bins x = some i then 1 else 0)
          = (List.range bins).map (fun i => if j = i then (1 : ℕ) else 0) := by
        refine List.map_congr_left ?_
        intro i _
        rw [hsome]
        simp
      rw [hind, sum_map_indicator, if_pos hjlt]
      simp [hx]
    · have hnone := binIndex_isNone lo hi x bins hx
      have hind :
          (List.range bins).map (fun i => if binIndex lo hi bins x = some i then 1 else 0)
          = (List.range bins).map (fun _ => (0 : ℕ)) := by
        refine List.map_congr_left ?_
        intro i _
        rw [hnone]
        simp
      rw [hind]
      have : ((List.range bins).map (fun _ => (0 : ℕ))).sum = 0 :=
        List.sum_eq_zero (by simp)
      rw [this]
      simp [hx]

lemma getD_mem {α : Type} (l : List α) (i : ℕ) (d : α) (h : i < l.length) :
    l.getD i d ∈ l := by
  rw [List.getD_eq_getElem l d h]
  exact List.getElem_mem h

lemma addImage_comm (A B : Image) : addImage A B = addImage B A :=
  List.zipWith_comm_of_comm _
    (fun r1 r2 => List.zipWith_comm_of_comm _ (fun x y => add_comm x y) r1 r2) A B

lemma length_addImage (A B : Image) (h : A.length = B.length) :
    (addImage A B).length = A.length := by
  rw [addImage, List.length_zipWith]
  omega

lemma shape_fst (A : Image) : (shape A).1 = A.length := rfl

lemma shape_snd (A : Image) : (shape A).2 = (A.headD []).length := rfl

lemma shape_addImage (A B : Image) (h : shape A = shape B) :
    shape (addImage A B) = shape A := by
  have hlen : A.length = B.length := congrArg Prod.fst h
  have hcols : (A.headD []).length = (B.headD []).length := congrArg Prod.snd h
  cases A with
  | nil =>
    cases B with
    | nil => rfl
    | cons b B' => simp at hlen
  | cons a A' =>
    cases B with
    | nil => simp at hlen
    | cons b B' =>
      have h1 : (List.zipWith (fun r1 r2 => List.zipWith (fun x y => x + y) r1 r2) A' B').length
          = A'.length := by
        rw [List.length_zipWith]
        simp only [List.length_cons] at hlen
        omega
      have h2 : (List.zipWith (fun x y => x + y) a b).length = a.length := by
        rw [List.length_zipWith]
        simp only [List.headD_cons] at hcols
        omega
      simp [shape, addImage, h1, h2]

lemma shape_scaleImage (c : ℚ) (A : Image) : shape (scaleImage c A) = shape A := by
  cases A with
  | nil => rfl
  | cons a A' => simp [shape, scaleImage]

lemma addImage_row (A B : Image) (i : ℕ) (hi : i < A.length) (hiB : i < B.length) :
    (addImage A B).getD i [] = List.zipWith (fun x y => x + y) (A.getD i []) (B.getD i []) :=
  getD_zipWith _ [] [] [] A B i hi hiB

lemma addImage_entry (A B : Image) (i j : ℕ) (hi : i < A.length) (hiB : i < B.length)
    (hj : j < (A.getD i []).length) (hjB : j < (B.getD i []).length) :
    ((addImage A B).getD i []).getD j 0 = (A.getD i []).getD j 0 + (B.getD i []).getD j 0 := by
  rw [addImage_row A B i hi hiB]
  exact getD_zipWith _ 0 0 0 _ _ j hj hjB

lemma scaleImage_entry (c : ℚ) (A : Image) (i j : ℕ) (hi : i < A.length)
    (hj : j < (A.getD i []).length) :
    ((scaleImage c A).getD i []).getD j 0 = c * (A.getD i []).getD j 0 := by
  rw [scaleImage, getD_map _ [] [] A i hi]
  exact getD_map _ 0 0 _ j hj

/-! ## Claim theorems -/

/-- C3: `summarize` applied to a series with zero samples fails with
`EmptyInputError`, and succeeds (returning the statistics record) for every
non-empty series. -/
theorem C3_summarize_empty (s : SampleSeries) (h : s ≠ []) :
    summarize ([] : SampleSeries) = Except.error StatsError.emptyInput ∧
    summarize s = Except.ok (statsOf s) :=
  ⟨rfl, by rw [summarize, if_neg h]⟩

/-- Witness for C3 at the concrete non-empty series `[3]`. -/
theorem C3_summarize_empty_witness :
    summarize ([] : SampleSeries) = Except.error StatsError.emptyInput ∧
    summarize [3] = Except.ok (statsOf [3]) :=
  C3_summarize_empty [3] (by decide)

/-- C9: for every non-empty series, the summary returned by `summarize`
satisfies `min ≤ median ≤ max` and `min ≤ mean ≤ max`. -/
theorem C9_summary_order_bounds (s : SampleSeries) (h : s ≠ []) :
    summarize s = Except.ok (statsOf s) ∧
    (statsOf s).min ≤ (statsOf s).median ∧ (statsOf s).median ≤ (statsOf s).max ∧
    (statsOf s).min ≤ (statsOf s).mean ∧ (statsOf s).mean ≤ (statsOf s).max := by
  obtain ⟨h1, h2⟩ := npMedian_bounds s h
  exact ⟨by rw [summarize, if_neg h], h1, h2, npMin_le_npMean s h, npMean_le_npMax s h⟩

/-- Witness for C9 at the concrete series `[1,1,2,3,1000]`. -/
theorem C9_summary_order_bounds_witness :
    summarize [1,1,2,3,1000] = Except.ok (statsOf [1,1,2,3,1000]) ∧
    (statsOf [1,1,2,3,1000]).min ≤ (statsOf [1,1,2,3,1000]).median ∧
    (statsOf [1,1,2,3,1000]).median ≤ (statsOf [1,1,2,3,1000]).max ∧
    (statsOf [1,1,2,3,1000]).min ≤ (statsOf [1,1,2,3,1000]).mean ∧
    (statsOf [1,1,2,3,1000]).mean ≤ (statsOf [1,1,2,3,1000]).max :=
  C9_summary_order_bounds [1,1,2,3,1000] (by decide)

/-- C7: `filterRange` returns exactly the subsequence of samples satisfying the
bound predicate, and on the concrete scenario `filterRange [1,1,2,3,1000] 0 5`
(both bounds inclusive) returns `[1,1,2,3]`, whose summary has
mean 1.75, median 1.5 and mode 1. -/
theorem C7_filterRange_pred_and_scenario :
    (∀ (s : SampleSeries) (low high : ℚ) (lowInc highInc : Bool),
      (filterRange s low high lowInc highInc).Sublist s ∧
      (∀ x : ℚ, x ∈ filterRange s low high lowInc highInc ↔
        x ∈ s ∧ (if lowInc then low ≤ x else low < x) ∧
          (if highInc then x ≤ high else x < high))) ∧
    filterRange [1,1,2,3,1000] 0 5 true true = [1,1,2,3] ∧
    summarize [1,1,2,3] = Except.ok ⟨4, 1, 3, 1.75, 1.5, 1, 11/16⟩ := by
  refine ⟨?_, by rfl, ?_⟩
  · intro s low high lowInc highInc
    refine ⟨List.filter_sublist s, ?_⟩
    intro x
    rw [filterRange, List.mem_filter]
    cases lowInc <;> cases highInc <;> simp
  · rw [summarize, if_neg (by decide : ¬ (([1,1,2,3] : SampleSeries) = []))]
    norm_num [statsOf, npMean, npMedian, npMin, npMax, npMode, popVariance,
      sortedVals, uniqueVals, List.insertionSort, List.orderedInsert]

/-- C8: `combine` applied to images whose shapes are not all identical fails
with `ShapeMismatchError`, for every operator. -/
theorem C8_combine_shape_mismatch (A : Image) (rest : List Image) (op : CombineOp)
    (h : ¬ ∀ B ∈ rest, shape B = shape A) :
    combine (A :: rest) op = Except.error CombineError.shapeMismatch := by
  rw [combine.eq_def]
  simp only []
  rw [if_neg]
  simp only [List.all_eq_true, decide_eq_true_eq]
  exact h

/-- Witness for C8 at a concrete mismatched pair (a 1×1 and a 1×2 image). -/
theorem C8_combine_shape_mismatch_witness :
    combine [[[1]], [[1, 2]]] CombineOp.opSum = Except.error CombineError.shapeMismatch :=
  C8_combine_shape_mismatch [[1]] [[[1, 2]]] CombineOp.opSum (by decide)

/-- C10: `combine` with the `mean` operator is commutative in its two inputs:
for same-shape images the averaged stack `[A, B]` equals the averaged stack
`[B, A]`. -/
theorem C10_combine_mean_comm (A B : Image) (h : shape A = shape B) :
    combine [A, B] CombineOp.opMean = combine [B, A] CombineOp.opMean := by
  have hc1 : List.all [B] (fun C => decide (shape C = shape A)) = true := by simp [h]
  have hc2 : List.all [A] (fun C => decide (shape C = shape B)) = true := by simp [h]
  rw [combine, if_pos hc1, combine, if_pos hc2]
  show Except.ok (scaleImage _ (addImage A (stackSum [B])))
    = Except.ok (scaleImage _ (addImage B (stackSum [A])))
  rw [show stackSum [B] = B from rfl, show stackSum [A] = A from rfl, addImage_comm]
  simp

/-- Witness for C10 at the concrete pair `[[1,2]]`, `[[3,4]]`. -/
theorem C10_combine_mean_comm_witness :
    combine [[[1, 2]], [[3, 4]]] CombineOp.opMean
      = combine [[[3, 4]], [[1, 2]]] CombineOp.opMean :=
  C10_combine_mean_comm [[1, 2]] [[3, 4]] (by decide)

/-- C2: for same-shape images `A`, `B`, `combine [A,B] sum` is the pixelwise
sum, `combine [A,B] mean` is the pixelwise average `(A[i][j]+B[i][j])/2`, and
both results are new images of the same shape as the inputs. -/
theorem C2_combine_pixelwise (A B : Image) (hA : Rect A) (hB : Rect B)
    (hsh : shape A = shape B) :
    combine [A, B] CombineOp.opSum = Except.ok (addImage A B) ∧
    combine [A, B] CombineOp.opMean = Except.ok (scaleImage (1/2) (addImage A B)) ∧
    shape (addImage A B) = shape A ∧
    shape (scaleImage (1/2) (addImage A B)) = shape A ∧
    (∀ i j : ℕ, i < A.length → j < (A.getD i []).length →
      ((addImage A B).getD i []).getD j 0
        = (A.getD i []).getD j 0 + (B.getD i []).getD j 0 ∧
      ((scaleImage (1/2) (addImage A B)).getD i []).getD j 0
        = ((A.getD i []).getD j 0 + (B.getD i []).getD j 0) / 2) := by
  have hc : List.all [B] (fun C => decide (shape C = shape A)) = true := by simp [hsh]
  have hlen : A.length = B.length := congrArg Prod.fst hsh
  have hcols : (A.headD []).length = (B.headD []).length := congrArg Prod.snd hsh
  refine ⟨?_, ?_, shape_addImage A B hsh, ?_, ?_⟩
  · rw [combine, if_pos hc]
    rw [show stackSum [A, B] = addImage A B from rfl]
  · rw [combine, if_pos hc]
    show Except.ok (scaleImage _ (addImage A (stackSum [B]))) = _
    rw [show stackSum [B] = B from rfl]
    norm_num
  · rw [shape_scaleImage, shape_addImage A B hsh]
  · intro i j hi hj
    have hiB : i < B.length := hlen ▸ hi
    have hrA : (A.getD i []).length = (A.headD []).length := hA _ (getD_mem A i [] hi)
    have hrB : (B.getD i []).length = (B.headD []).length := hB _ (getD_mem B i [] hiB)
    have hjB : j < (B.getD i []).length := by omega
    have hadd := addImage_entry A B i j hi hiB hj hjB
    refine ⟨hadd, ?_⟩
    have hiAB : i < (addImage A B).length := by
      rw [length_addImage A B hlen]; exact hi
    have hjAB : j < ((addImage A B).getD i []).length := by
      rw [addImage_row A B i hi hiB, List.length_zipWith]
      omega
    rw [scaleImage_entry (1/2) (addImage A B) i j hiAB hjAB, hadd]
    ring

/-- Witness for C2 at the concrete pair `[[1,2],[3,4]]`, `[[5,6],[7,8]]`,
projected to the pixel (0, 1). -/
theorem C2_combine_pixelwise_witness :
    combine [[[1, 2], [3, 4]], [[5, 6], [7, 8]]] CombineOp.opSum
      = Except.ok (addImage [[1, 2], [3, 4]] [[5, 6], [7, 8]]) ∧
    combine [[[1, 2], [3, 4]], [[5, 6], [7, 8]]] CombineOp.opMean
      = Except.ok (scaleImage (1/2) (addImage [[1, 2], [3, 4]] [[5, 6], [7, 8]])) ∧
    ((addImage [[1, 2], [3, 4]] [[5, 6], [7, 8]]).getD 0 []).getD 1 0
      = (([[1, 2], [3, 4]] : Image).getD 0 []).getD 1 0
        + (([[5, 6], [7, 8]] : Image).getD 0 []).getD 1 0 ∧
    ((scaleImage (1/2) (addImage [[1, 2], [3, 4]] [[5, 6], [7, 8]])).getD 0 []).getD 1 0
      = ((([[1, 2], [3, 4]] : Image).getD 0 []).getD 1 0
        + (([[5, 6], [7, 8]] : Image).getD 0 []).getD 1 0) / 2 :=
  ⟨(C2_combine_pixelwise [[1, 2], [3, 4]] [[5, 6], [7, 8]]
      (by decide) (by decide) (by decide)).1,
   (C2_combine_pixelwise [[1, 2], [3, 4]] [[5, 6], [7, 8]]
      (by decide) (by decide) (by decide)).2.1,
   ((C2_combine_pixelwise [[1, 2], [3, 4]] [[5, 6], [7, 8]]
      (by decide) (by decide) (by decide)).2.2.2.2 0 1 (by decide) (by decide)).1,
   ((C2_combine_pixelwise [[1, 2], [3, 4]] [[5, 6], [7, 8]]
      (by decide) (by decide) (by decide)).2.2.2.2 0 1 (by decide) (by decide)).2⟩

/-- C4: for a valid spec, `histogram` succeeds and its bin counts sum to the
number of samples within `[rangeMin, rangeMax]`, never exceeding the sample
count. -/
theorem C4_histogram_counts_sum (s : SampleSeries) (spec : HistogramSpec)
    (hb : spec.binCount ≠ 0) (hr : spec.rangeMin < spec.rangeMax) :
    histogram s spec = Except.ok ⟨binEdges spec.rangeMin spec.rangeMax spec.binCount,
        histCounts s spec.rangeMin spec.rangeMax spec.binCount⟩ ∧
    (histCounts s spec.rangeMin spec.rangeMax spec.binCount).sum
      = s.countP (fun x => decide (spec.rangeMin ≤ x ∧ x ≤ spec.rangeMax)) ∧
    (histCounts s spec.rangeMin spec.rangeMax spec.binCount).sum ≤ s.length := by
  refine ⟨?_, histCounts_sum s _ _ _ hb, ?_⟩
  · rw [histogram, if_neg]
    push_neg
    exact ⟨hb, hr⟩
  · rw [histCounts_sum s _ _ _ hb]
    exact List.countP_le_length _

/-- Witness for C4 at the spec scenario: 10 samples `[0..9]`, range `[0,10]`,
5 bins. -/
theorem C4_histogram_counts_sum_witness :
    histogram [0,1,2,3,4,5,6,7,8,9] ⟨0, 10, 5⟩
      = Except.ok ⟨binEdges 0 10 5, histCounts [0,1,2,3,4,5,6,7,8,9] 0 10 5⟩ ∧
    (histCounts [0,1,2,3,4,5,6,7,8,9] 0 10 5).sum
      = List.countP (fun x => decide ((0 : ℚ) ≤ x ∧ x ≤ 10)) [0,1,2,3,4,5,6,7,8,9] ∧
    (histCounts [0,1,2,3,4,5,6,7,8,9] 0 10 5).sum
      ≤ ([0,1,2,3,4,5,6,7,8,9] : SampleSeries).length :=
  C4_histogram_counts_sum [0,1,2,3,4,5,6,7,8,9] ⟨0, 10, 5⟩ (by decide) (by decide)

/-- C6: for every non-empty series, the mode returned by `summarize` is a
sample value of maximal occurrence count, and is the smallest such value when
several values share the maximal count. -/
theorem C6_mode_most_frequent (s : SampleSeries) (h : s ≠ []) :
    summarize s = Except.ok (statsOf s) ∧
    (statsOf s).mode ∈ s ∧
    (∀ v ∈ s, s.count v ≤ s.count ((statsOf s).mode)) ∧
    (∀ v ∈ s, s.count v = s.count ((statsOf s).mode) → (statsOf s).mode ≤ v) := by
  obtain ⟨h1, h2, h3⟩ := npMode_spec s h
  exact ⟨by rw [summarize, if_neg h], h1, h2, h3⟩

/-- Witness for C6 at `[2,5,5,9]`, projected to the sample value 2. -/
theorem C6_mode_most_frequent_witness :
    summarize [2,5,5,9] = Except.ok (statsOf [2,5,5,9]) ∧
    (statsOf [2,5,5,9]).mode ∈ ([2,5,5,9] : SampleSeries) ∧
    List.count (2 : ℚ) [2,5,5,9] ≤ List.count ((statsOf [2,5,5,9]).mode) [2,5,5,9] :=
  ⟨(C6_mode_most_frequent [2,5,5,9] (by decide)).1,
   (C6_mode_most_frequent [2,5,5,9] (by decide)).2.1,
   (C6_mode_most_frequent [2,5,5,9] (by decide)).2.2.1 2 (by decide)⟩

/-- C1 (amended): on the concrete series `[1,1,2,3,1000]`, `summarize` returns
mean 201.4, median 2, mode 1, min 1, max 1000, and the population standard
deviation (the square root of the population variance 159441.04) is
approximately 399.3 (within 0.1) — not 398.5 as the original claim states. -/
theorem C1_concrete_summary :
    summarize [1,1,2,3,1000]
      = Except.ok ⟨5, 1, 1000, 201.4, 2, 1, 3986026/25⟩ ∧
    |Real.sqrt ((popVariance [1,1,2,3,1000] : ℚ) : ℝ) - 399.3| ≤ 0.1 := by
  constructor
  · rw [summarize, if_neg (by decide : ¬ (([1,1,2,3,1000] : SampleSeries) = []))]
    norm_num [statsOf, npMean, npMedian, npMin, npMax, npMode, popVariance,
      sortedVals, uniqueVals, List.insertionSort, List.orderedInsert]
  · have hv : popVariance [1,1,2,3,1000] = 3986026/25 := by
      norm_num [popVariance, npMean]
    rw [hv]
    have h1 : (399.2 : ℝ) ≤ Real.sqrt ((3986026/25 : ℚ) : ℝ) := by
      rw [Real.le_sqrt (by norm_num) (by push_cast; norm_num)]
      push_cast
      norm_num
    have h2 : Real.sqrt ((3986026/25 : ℚ) : ℝ) ≤ 399.4 := by
      calc Real.sqrt ((3986026/25 : ℚ) : ℝ) ≤ Real.sqrt ((399.4 : ℝ) ^ 2) := by
            apply Real.sqrt_le_sqrt
            push_cast
            norm_num
        _ = 399.4 := Real.sqrt_sq (by norm_num)
    rw [abs_le]
    constructor <;> linarith

/-- Counterexample for C1 as stated: the population standard deviation of
`[1,1,2,3,1000]` is not within 0.1 of 398.5 (it is ≈ 399.30). -/
theorem C1_std_counterexample :
    ¬ |Real.sqrt ((popVariance [1,1,2,3,1000] : ℚ) : ℝ) - 398.5| ≤ 0.1 := by
  have hv : popVariance [1,1,2,3,1000] = 3986026/25 := by
    norm_num [popVariance, npMean]
  rw [hv]
  intro habs
  have h1 : (398.6 : ℝ) < Real.sqrt ((3986026/25 : ℚ) : ℝ) := by
    rw [Real.lt_sqrt (by norm_num)]
    push_cast
    norm_num
  rw [abs_le] at habs
  linarith

lemma length_linspace (a b : ℚ) (n : ℕ) : (linspace a b n).length = n := by
  rw [linspace, List.length_map, List.length_range]

lemma linspace_getD (a b : ℚ) (n i : ℕ) (h : i < n) :
    (linspace a b n).getD i 0 = a + (i : ℚ) * (b - a) / ((n - 1 : ℕ) : ℚ) := by
  rw [linspace,
    getD_map (fun j : ℕ => a + (j : ℚ) * (b - a) / ((n - 1 : ℕ) : ℚ)) 0 0 (List.range n) i
      (by rwa [List.length_range]),
    List.getD_eq_getElem _ _ (by rwa [List.length_range]), List.getElem_range]

/-- C5: for every series and valid spec, `fitNormal` returns mu = mean,
sigma² = population variance, normalization = (rangeMax − rangeMin) / binCount
× (count of samples within [rangeMin, rangeMax]), over exactly binCount × 10
evenly spaced x-points spanning [rangeMin, rangeMax], with the overlay points
being the (x, density × normalization) pairs. -/
theorem C5_fitNormal_components (s : SampleSeries) (spec : HistogramSpec)
    (hb : spec.binCount ≠ 0) (hr : spec.rangeMin < spec.rangeMax) :
    (fitNormal s spec).mu = npMean s ∧
    (fitNormal s spec).sigma2 = popVariance s ∧
    (fitNormal s spec).normalization
      = (spec.rangeMax - spec.rangeMin) / (spec.binCount : ℚ)
        * (s.countP (fun x => decide (spec.rangeMin ≤ x ∧ x ≤ spec.rangeMax)) : ℚ) ∧
    (fitNormal s spec).xs.length = spec.binCount * 10 ∧
    (fitNormal s spec).xs
      = (List.range (spec.binCount * 10)).map
          (fun i : ℕ => spec.rangeMin
            + (spec.rangeMax - spec.rangeMin) * (i : ℚ)
              / ((spec.binCount * 10 - 1 : ℕ) : ℚ)) ∧
    (fitNormal s spec).xs.getD 0 0 = spec.rangeMin ∧
    (fitNormal s spec).xs.getD (spec.binCount * 10 - 1) 0 = spec.rangeMax ∧
    curvePoints (fitNormal s spec)
      = (fitNormal s spec).xs.map
          (fun x => (x, ((fitNormal s spec).normalization : ℝ)
            * normPdf (npMean s) (popVariance s) x)) := by
  have hn : 0 < spec.binCount * 10 := by omega
  refine ⟨rfl, rfl, ?_, ?_, ?_, ?_, ?_, rfl⟩
  · have hp : (fun x : ℚ => decide (spec.rangeMin ≤ x ∧ x ≤ spec.rangeMax))
        = (fun x : ℚ => decide (spec.rangeMin ≤ x) && decide (x ≤ spec.rangeMax)) := by
      funext x
      rw [Bool.decide_and]
    show (spec.rangeMax - spec.rangeMin) / (spec.binCount : ℚ)
      * ((s.filter (fun x => decide (spec.rangeMin ≤ x) && decide (x ≤ spec.rangeMax))).length : ℚ)
      = _
    rw [List.countP_eq_length_filter, hp]
  · show (linspace spec.rangeMin spec.rangeMax (spec.binCount * 10)).length = _
    exact length_linspace _ _ _
  · show linspace spec.rangeMin spec.rangeMax (spec.binCount * 10) = _
    rw [linspace]
    refine List.map_congr_left ?_
    intro i _
    ring
  · show (linspace spec.rangeMin spec.rangeMax (spec.binCount * 10)).getD 0 0 = _
    rw [linspace_getD _ _ _ 0 hn]
    push_cast
    ring
  · show (linspace spec.rangeMin spec.rangeMax (spec.binCount * 10)).getD
        (spec.binCount * 10 - 1) 0 = _
    have hlt : spec.binCount * 10 - 1 < spec.binCount * 10 := by omega
    rw [linspace_getD _ _ _ _ hlt]
    have hne : ((spec.binCount * 10 - 1 : ℕ) : ℚ) ≠ 0 := Nat.cast_ne_zero.mpr (by omega)
    rw [mul_div_cancel_left₀ _ hne]
    ring

/-- Witness for C5 at the series `[1,2]` and the spec `(0, 10, 2)`. -/
theorem C5_fitNormal_components_witness :
    (fitNormal [1, 2] ⟨0, 10, 2⟩).mu = npMean [1, 2] ∧
    (fitNormal [1, 2] ⟨0, 10, 2⟩).sigma2 = popVariance [1, 2] ∧
    (fitNormal [1, 2] ⟨0, 10, 2⟩).normalization
      = (10 - 0) / ((2 : ℕ) : ℚ)
        * (List.countP (fun x => decide ((0 : ℚ) ≤ x ∧ x ≤ 10)) [1, 2] : ℚ) ∧
    (fitNormal [1, 2] ⟨0, 10, 2⟩).xs.length = 2 * 10 ∧
    (fitNormal [1, 2] ⟨0, 10, 2⟩).xs
      = (List.range (2 * 10)).map
          (fun i : ℕ => 0 + (10 - 0) * (i : ℚ) / ((2 * 10 - 1 : ℕ) : ℚ)) ∧
    (fitNormal [1, 2] ⟨0, 10, 2⟩).xs.getD 0 0 = 0 ∧
    (fitNormal [1, 2] ⟨0, 10, 2⟩).xs.getD (2 * 10 - 1) 0 = 10 ∧
    curvePoints (fitNormal [1, 2] ⟨0, 10, 2⟩)
      = (fitNormal [1, 2] ⟨0, 10, 2⟩).xs.map
          (fun x => (x, ((fitNormal [1, 2] ⟨0, 10, 2⟩).normalization : ℝ)
            * normPdf (npMean [1, 2]) (popVariance [1, 2]) x)) :=
  C5_fitNormal_components [1, 2] ⟨0, 10, 2⟩ (by decide) (by decide)

end FitsStats
